import Mathlib

/-!
Shallow embedding of `nautilus_trader/execution/matching_core.pyx` (the
`MatchingCore` class and the module-level `order_sort_key` function).

Modelling conventions:
* `Price` values participate only through their signed 64-bit `raw` field and
  are only ever compared, never combined arithmetically, so a raw price is an
  `Int`.
* `Order` objects are mutable heap objects referenced by the core's
  collections; we model the heap explicitly as `Heap : Nat → Order` with
  order references (`OrderRef`) standing for object identity, exactly as
  Python lists of objects hold references compared by identity.
* The Python `dict` from `ClientOrderId` to `Order` is an association list
  with dict semantics: assignment overwrites in place, `pop` removes.
* `list.sort(key=...)` (Timsort, stable) is modelled by `List.mergeSort`
  (stable) with the corresponding boolean comparator; `reverse=True` flips
  the comparator, as CPython does.
* A raised exception (`RuntimeError` / `ValueError` / `TypeError`) is a
  `true` "raised" flag for `add_order` / `delete_order` (which mutate state
  before the raise point, so the partial state matters), and `none` for the
  matching routines and predicates (no claim observes their post-raise
  state).
* The three injected callbacks receive the heap and the core and may mutate
  both (re-entrant calls such as `delete_order` are just applications of the
  model's functions); each callback invocation is also recorded as an
  `Event` so that theorems can speak about which callbacks fired, in which
  order, and for which order.
-/

/-- OrderSide enum: `BUY`, `SELL`, and a value standing for any other
(invalid) member such as `NONE`. -/
inductive OrderSide where
  | buy
  | sell
  | sideNone
deriving DecidableEq, Repr

/-- OrderType enum, all members dispatched on by the matching core. -/
inductive OrderType where
  | market
  | limit
  | stopMarket
  | stopLimit
  | marketToLimit
  | marketIfTouched
  | limitIfTouched
  | trailingStopMarket
  | trailingStopLimit
deriving DecidableEq, Repr

/-- LiquiditySide enum. -/
inductive LiquiditySide where
  | noLiquiditySide
  | maker
  | taker
deriving DecidableEq, Repr

/-- The fields of an `Order` object that the matching core reads or writes.
`price` and `trigger_price` are raw int64 prices; `triggered_price` is the
field written by `set_triggered_price_c`. -/
structure Order where
  client_order_id : Nat
  side : OrderSide
  order_type : OrderType
  price : Int
  trigger_price : Int
  is_triggered : Bool
  triggered_price : Option Int
  liquidity_side : LiquiditySide
  is_closed : Bool
deriving DecidableEq, Repr

/-- An order reference: the identity of a heap-allocated `Order` object. -/
abbrev OrderRef := Nat

/-- The heap of order objects, indexed by reference. -/
abbrev Heap := OrderRef → Order

/-- Mutate the order object at reference `r` in place. -/
def updateOrder (h : Heap) (r : OrderRef) (f : Order → Order) : Heap :=
  fun x => if x = r then f (h x) else h x

/-- Python dict assignment `d[k] = v`: overwrite in place if the key is
present, else append. -/
def dictInsert (d : List (Nat × OrderRef)) (k : Nat) (v : OrderRef) :
    List (Nat × OrderRef) :=
  if d.any (fun p => p.1 = k) then
    d.map (fun p => if p.1 = k then (k, v) else p)
  else
    d ++ [(k, v)]

/-- Python `d.pop(k, None)`: remove the key if present. -/
def dictPop (d : List (Nat × OrderRef)) (k : Nat) : List (Nat × OrderRef) :=
  d.filter (fun p => p.1 ≠ k)

/-- Python `d.get(k)`. -/
def dictGet (d : List (Nat × OrderRef)) (k : Nat) : Option OrderRef :=
  (d.find? (fun p => p.1 = k)).map (fun p => p.2)

/-- Python `k in d`. -/
def dictContains (d : List (Nat × OrderRef)) (k : Nat) : Bool :=
  d.any (fun p => p.1 = k)

/-- The mutable state of a `MatchingCore` instance: the three raw market
prices with their initialization flags, the order index (`self._orders`),
and the two side lists (`self._orders_bid`, `self._orders_ask`) holding
order references. -/
structure MatchingCore where
  bid_raw : Int
  ask_raw : Int
  last_raw : Int
  is_bid_initialized : Bool
  is_ask_initialized : Bool
  is_last_initialized : Bool
  orders : List (Nat × OrderRef)
  orders_bid : List OrderRef
  orders_ask : List OrderRef
deriving DecidableEq, Repr

namespace MatchingCore

/-- The state established by `__init__`. -/
def initial : MatchingCore :=
  { bid_raw := 0
    ask_raw := 0
    last_raw := 0
    is_bid_initialized := false
    is_ask_initialized := false
    is_last_initialized := false
    orders := []
    orders_bid := []
    orders_ask := [] }

/-- Method `set_bid_raw`. -/
def set_bid_raw (c : MatchingCore) (v : Int) : MatchingCore :=
  { c with is_bid_initialized := true, bid_raw := v }

/-- Method `set_ask_raw`. -/
def set_ask_raw (c : MatchingCore) (v : Int) : MatchingCore :=
  { c with is_ask_initialized := true, ask_raw := v }

/-- Method `set_last_raw`. -/
def set_last_raw (c : MatchingCore) (v : Int) : MatchingCore :=
  { c with is_last_initialized := true, last_raw := v }

/-- Method `reset`. -/
def reset (c : MatchingCore) : MatchingCore :=
  { c with
    orders := []
    orders_bid := []
    orders_ask := []
    bid_raw := 0
    ask_raw := 0
    last_raw := 0
    is_bid_initialized := false
    is_ask_initialized := false
    is_last_initialized := false }

/-- Query `get_order`. -/
def get_order (c : MatchingCore) (id : Nat) : Option OrderRef :=
  dictGet c.orders id

/-- Query `order_exists`. -/
def order_exists (c : MatchingCore) (id : Nat) : Bool :=
  dictContains c.orders id

/-- Query `get_orders` (bid list concatenated with ask list). -/
def get_orders (c : MatchingCore) : List OrderRef :=
  c.orders_bid ++ c.orders_ask

/-- Query `get_orders_bid`. -/
def get_orders_bid (c : MatchingCore) : List OrderRef :=
  c.orders_bid

/-- Query `get_orders_ask`. -/
def get_orders_ask (c : MatchingCore) : List OrderRef :=
  c.orders_ask

end MatchingCore

/-- Module-level `order_sort_key`: the priority key of an order, or `none`
when the order type is invalid for the book (`MARKET`), where the source
raises `RuntimeError`. -/
def order_sort_key (o : Order) : Option Int :=
  match o.order_type with
  | .limit => some o.price
  | .marketToLimit => some o.price
  | .stopMarket => some o.trigger_price
  | .stopLimit => some (if o.is_triggered then o.price else o.trigger_price)
  | .marketIfTouched => some o.trigger_price
  | .limitIfTouched => some (if o.is_triggered then o.price else o.trigger_price)
  | .trailingStopMarket => some o.trigger_price
  | .trailingStopLimit => some (if o.is_triggered then o.price else o.trigger_price)
  | .market => none

/-- Sort key of the order referenced by `r`; the default value is never
reached on states where every resting order has a sortable type. -/
def sortKeyD (h : Heap) (r : OrderRef) : Int :=
  (order_sort_key (h r)).getD 0

namespace MatchingCore

/-- Method `_sort_bid_orders`: stable sort, descending by key
(`reverse=True`). -/
def _sort_bid_orders (h : Heap) (l : List OrderRef) : List OrderRef :=
  l.mergeSort (fun a b => sortKeyD h b ≤ sortKeyD h a)

/-- Method `_sort_ask_orders`: stable sort, ascending by key. -/
def _sort_ask_orders (h : Heap) (l : List OrderRef) : List OrderRef :=
  l.mergeSort (fun a b => sortKeyD h a ≤ sortKeyD h b)

/-- Method `_add_order` (also the public `add_order`, which only forwards).
Returns the possibly-mutated core and a flag that is `true` when the
`RuntimeError` for an invalid `OrderSide` was raised. Note the index
assignment happens before the side dispatch, exactly as in the source. -/
def _add_order (h : Heap) (c : MatchingCore) (r : OrderRef) :
    MatchingCore × Bool :=
  let o := h r
  let c1 := { c with orders := dictInsert c.orders o.client_order_id r }
  match o.side with
  | .buy => ({ c1 with orders_bid := _sort_bid_orders h (c1.orders_bid ++ [r]) }, false)
  | .sell => ({ c1 with orders_ask := _sort_ask_orders h (c1.orders_ask ++ [r]) }, false)
  | .sideNone => (c1, true)

/-- Public `add_order` forwards to `_add_order`. -/
def add_order (h : Heap) (c : MatchingCore) (r : OrderRef) :
    MatchingCore × Bool :=
  _add_order h c r

/-- Method `delete_order`: pop the index entry, then remove the first
occurrence of the object from its side list (`if order in list:
list.remove(order)`, a no-op when absent); an invalid side raises after the
pop. -/
def delete_order (h : Heap) (c : MatchingCore) (r : OrderRef) :
    MatchingCore × Bool :=
  let o := h r
  let c1 := { c with orders := dictPop c.orders o.client_order_id }
  match o.side with
  | .buy => ({ c1 with orders_bid := c1.orders_bid.erase r }, false)
  | .sell => ({ c1 with orders_ask := c1.orders_ask.erase r }, false)
  | .sideNone => (c1, true)

/-- Predicate `is_limit_matched`; `none` models the `ValueError` raised on
an invalid side. -/
def is_limit_matched (c : MatchingCore) (side : OrderSide) (price : Int) :
    Option Bool :=
  match side with
  | .buy =>
      if !c.is_ask_initialized then some false
      else some (decide (c.ask_raw ≤ price))
  | .sell =>
      if !c.is_bid_initialized then some false
      else some (decide (c.bid_raw ≥ price))
  | .sideNone => none

/-- Predicate `is_stop_triggered`. -/
def is_stop_triggered (c : MatchingCore) (side : OrderSide)
    (trigger_price : Int) : Option Bool :=
  match side with
  | .buy =>
      if !c.is_ask_initialized then some false
      else some (decide (c.ask_raw ≥ trigger_price))
  | .sell =>
      if !c.is_bid_initialized then some false
      else some (decide (c.bid_raw ≤ trigger_price))
  | .sideNone => none

/-- Predicate `is_touch_triggered`. -/
def is_touch_triggered (c : MatchingCore) (side : OrderSide)
    (trigger_price : Int) : Option Bool :=
  match side with
  | .buy =>
      if !c.is_ask_initialized then some false
      else some (decide (c.ask_raw ≤ trigger_price))
  | .sell =>
      if !c.is_bid_initialized then some false
      else some (decide (c.bid_raw ≥ trigger_price))
  | .sideNone => none

/-- Method `_determine_order_liquidity`. -/
def _determine_order_liquidity (init : Bool) (side : OrderSide)
    (price : Int) (trigger_price : Int) : LiquiditySide :=
  if init then .taker
  else if side = .buy ∧ trigger_price > price then .maker
  else if side = .sell ∧ trigger_price < price then .maker
  else .taker

end MatchingCore

/-- Observable record of a callback invocation made by the core. -/
inductive Event where
  | triggerStopOrder (r : OrderRef)
  | fillMarketOrder (r : OrderRef)
  | fillLimitOrder (r : OrderRef)
deriving DecidableEq, Repr

/-- The three injected event handlers. Each may mutate the order heap and
call back into the core (so it may also transform the core state). -/
structure Callbacks where
  trigger_stop_order : Heap → MatchingCore → OrderRef → Heap × MatchingCore
  fill_market_order : Heap → MatchingCore → OrderRef → Heap × MatchingCore
  fill_limit_order : Heap → MatchingCore → OrderRef → Heap × MatchingCore

/-- Result of a matching routine: the heap, the core, and the callback
invocations in order; `none` models a propagated enum error. -/
abbrev MatchResult := Option (Heap × MatchingCore × List Event)

namespace MatchingCore

/-- Method `match_limit_order`. -/
def match_limit_order (cb : Callbacks) (h : Heap) (c : MatchingCore)
    (r : OrderRef) : MatchResult :=
  match is_limit_matched c (h r).side (h r).price with
  | none => none
  | some false => some (h, c, [])
  | some true =>
      let h1 := updateOrder h r (fun o => { o with liquidity_side := .maker })
      let p := cb.fill_limit_order h1 c r
      some (p.1, p.2, [.fillLimitOrder r])

/-- Method `match_stop_market_order`. -/
def match_stop_market_order (cb : Callbacks) (h : Heap) (c : MatchingCore)
    (r : OrderRef) : MatchResult :=
  match is_stop_triggered c (h r).side (h r).trigger_price with
  | none => none
  | some false => some (h, c, [])
  | some true =>
      let h1 := updateOrder h r
        (fun o => { o with triggered_price := some o.trigger_price })
      let p := cb.fill_market_order h1 c r
      some (p.1, p.2, [.fillMarketOrder r])

/-- Method `match_stop_limit_order`. The order's fields are re-read from the
heap after the trigger callback, as the source re-reads `order.side` and
`order.price` for the marketability check. -/
def match_stop_limit_order (cb : Callbacks) (h : Heap) (c : MatchingCore)
    (r : OrderRef) (init : Bool) : MatchResult :=
  if (h r).is_triggered then
    match is_limit_matched c (h r).side (h r).price with
    | none => none
    | some false => some (h, c, [])
    | some true =>
        let h1 := updateOrder h r (fun o => { o with liquidity_side := .maker })
        let p := cb.fill_limit_order h1 c r
        some (p.1, p.2, [.fillLimitOrder r])
  else
    match is_stop_triggered c (h r).side (h r).trigger_price with
    | none => none
    | some false => some (h, c, [])
    | some true =>
        let h1 := updateOrder h r
          (fun o => { o with triggered_price := some o.trigger_price })
        let h2 := updateOrder h1 r (fun o =>
          { o with liquidity_side :=
              _determine_order_liquidity init o.side o.price o.trigger_price })
        let p := cb.trigger_stop_order h2 c r
        match is_limit_matched p.2 (p.1 r).side (p.1 r).price with
        | none => none
        | some false => some (p.1, p.2, [.triggerStopOrder r])
        | some true =>
            let h3 := updateOrder p.1 r
              (fun o => { o with liquidity_side := .taker })
            let q := cb.fill_limit_order h3 p.2 r
            some (q.1, q.2, [.triggerStopOrder r, .fillLimitOrder r])

/-- Method `match_market_if_touched_order`. -/
def match_market_if_touched_order (cb : Callbacks) (h : Heap)
    (c : MatchingCore) (r : OrderRef) : MatchResult :=
  match is_touch_triggered c (h r).side (h r).trigger_price with
  | none => none
  | some false => some (h, c, [])
  | some true =>
      let h1 := updateOrder h r
        (fun o => { o with triggered_price := some o.trigger_price })
      let p := cb.fill_market_order h1 c r
      some (p.1, p.2, [.fillMarketOrder r])

/-- Method `match_limit_if_touched_order`: as `match_stop_limit_order` with
the touch predicate, except that `set_triggered_price_c` is called only
when `initial` is false. -/
def match_limit_if_touched_order (cb : Callbacks) (h : Heap)
    (c : MatchingCore) (r : OrderRef) (init : Bool) : MatchResult :=
  if (h r).is_triggered then
    match is_limit_matched c (h r).side (h r).price with
    | none => none
    | some false => some (h, c, [])
    | some true =>
        let h1 := updateOrder h r (fun o => { o with liquidity_side := .maker })
        let p := cb.fill_limit_order h1 c r
        some (p.1, p.2, [.fillLimitOrder r])
  else
    match is_touch_triggered c (h r).side (h r).trigger_price with
    | none => none
    | some false => some (h, c, [])
    | some true =>
        let h1 :=
          if !init then
            updateOrder h r
              (fun o => { o with triggered_price := some o.trigger_price })
          else h
        let h2 := updateOrder h1 r (fun o =>
          { o with liquidity_side :=
              _determine_order_liquidity init o.side o.price o.trigger_price })
        let p := cb.trigger_stop_order h2 c r
        match is_limit_matched p.2 (p.1 r).side (p.1 r).price with
        | none => none
        | some false => some (p.1, p.2, [.triggerStopOrder r])
        | some true =>
            let h3 := updateOrder p.1 r
              (fun o => { o with liquidity_side := .taker })
            let q := cb.fill_limit_order h3 p.2 r
            some (q.1, q.2, [.triggerStopOrder r, .fillLimitOrder r])

/-- Method `match_order`: dispatch on order type; `MARKET` raises
`TypeError`. -/
def match_order (cb : Callbacks) (h : Heap) (c : MatchingCore)
    (r : OrderRef) (init : Bool := false) : MatchResult :=
  match (h r).order_type with
  | .limit => match_limit_order cb h c r
  | .marketToLimit => match_limit_order cb h c r
  | .stopLimit => match_stop_limit_order cb h c r init
  | .trailingStopLimit => match_stop_limit_order cb h c r init
  | .stopMarket => match_stop_market_order cb h c r
  | .trailingStopMarket => match_stop_market_order cb h c r
  | .limitIfTouched => match_limit_if_touched_order cb h c r init
  | .marketIfTouched => match_market_if_touched_order cb h c r
  | .market => none

/-- The loop body of `iterate` over the snapshot taken at entry: skip
orders that are closed at the moment their turn comes, otherwise match
them with `initial=False`. -/
def sweep (cb : Callbacks) : List OrderRef → Heap → MatchingCore →
    List Event → MatchResult
  | [], h, c, evs => some (h, c, evs)
  | r :: rest, h, c, evs =>
      if (h r).is_closed then sweep cb rest h c evs
      else
        match match_order cb h c r false with
        | none => none
        | some (h1, c1, evs1) => sweep cb rest h1 c1 (evs ++ evs1)

/-- Method `iterate`: the snapshot `orders_bid + orders_ask` is taken once
at entry (the Python list concatenation copies both lists); the timestamp
is unused by the core itself. -/
def iterate (cb : Callbacks) (h : Heap) (c : MatchingCore)
    (_timestamp_ns : Nat) : MatchResult :=
  sweep cb (c.orders_bid ++ c.orders_ask) h c []

end MatchingCore

/-! Sortedness of the two side lists, as maintained by the sort methods. -/

/-- The bid-side priority invariant: descending by `order_sort_key`. -/
def bidsSorted (h : Heap) (l : List OrderRef) : Prop :=
  l.Pairwise (fun a b => sortKeyD h b ≤ sortKeyD h a)

/-- The ask-side priority invariant: ascending by `order_sort_key`. -/
def asksSorted (h : Heap) (l : List OrderRef) : Prop :=
  l.Pairwise (fun a b => sortKeyD h a ≤ sortKeyD h b)

/-- Sorting small lists: `mergeSort` on a two-element list compares once. -/
theorem mergeSort_pair {α : Type} (le : α → α → Bool) (a b : α) :
    [a, b].mergeSort le = if le a b then [a, b] else [b, a] := by
  rw [List.mergeSort]
  simp [List.merge]

/-- The bid sort really sorts (descending). -/
theorem sorted_sort_bid (h : Heap) (l : List OrderRef) :
    bidsSorted h (MatchingCore._sort_bid_orders h l) := by
  have := @List.sorted_mergeSort OrderRef
    (fun a b => decide (sortKeyD h b ≤ sortKeyD h a))
    (fun a b c hab hbc => by
      simp only [decide_eq_true_eq] at *; omega)
    (fun a b => by
      simp only [Bool.or_eq_true, decide_eq_true_eq]; omega)
    l
  exact this.imp (fun hab => by simpa using hab)

/-- The ask sort really sorts (ascending). -/
theorem sorted_sort_ask (h : Heap) (l : List OrderRef) :
    asksSorted h (MatchingCore._sort_ask_orders h l) := by
  have := @List.sorted_mergeSort OrderRef
    (fun a b => decide (sortKeyD h a ≤ sortKeyD h b))
    (fun a b c hab hbc => by
      simp only [decide_eq_true_eq] at *; omega)
    (fun a b => by
      simp only [Bool.or_eq_true, decide_eq_true_eq]; omega)
    l
  exact this.imp (fun hab => by simpa using hab)

/-! Claim theorems. -/

/-- C4: `is_limit_matched(BUY, p)` returns true iff the ask is initialized
and `ask_raw ≤ p`, and `is_limit_matched(SELL, p)` returns true iff the bid
is initialized and `bid_raw ≥ p`; when the required opposite-side price is
uninitialized the predicate returns false regardless of the stored raw
value. -/
theorem is_limit_matched_characterization (c : MatchingCore) (p : Int) :
    (c.is_limit_matched .buy p = some true ↔
      c.is_ask_initialized = true ∧ c.ask_raw ≤ p)
    ∧ (c.is_limit_matched .sell p = some true ↔
      c.is_bid_initialized = true ∧ c.bid_raw ≥ p)
    ∧ c.is_limit_matched .buy p
        = some (c.is_ask_initialized && decide (c.ask_raw ≤ p))
    ∧ c.is_limit_matched .sell p
        = some (c.is_bid_initialized && decide (c.bid_raw ≥ p)) := by
  refine ⟨?_, ?_, ?_, ?_⟩ <;>
    cases hA : c.is_ask_initialized <;> cases hB : c.is_bid_initialized <;>
      simp [MatchingCore.is_limit_matched, hA, hB]

/-- C5: the liquidity-side determination returns TAKER whenever `initial`
is true; otherwise MAKER exactly when BUY with `trigger_price > price` or
SELL with `trigger_price < price`, and TAKER in every other case. -/
theorem determine_order_liquidity_characterization (side : OrderSide)
    (p t : Int) :
    MatchingCore._determine_order_liquidity true side p t
      = LiquiditySide.taker
    ∧ MatchingCore._determine_order_liquidity false side p t
      = (if (side = .buy ∧ t > p) ∨ (side = .sell ∧ t < p) then
          LiquiditySide.maker
        else LiquiditySide.taker) := by
  constructor
  · simp [MatchingCore._determine_order_liquidity]
  · cases side <;> simp [MatchingCore._determine_order_liquidity]

/-! State mutated before the invalid-side raise (C2). -/

/-- An order whose side is neither BUY nor SELL. -/
def oInvalidSide : Order :=
  { client_order_id := 7
    side := .sideNone
    order_type := .limit
    price := 0
    trigger_price := 0
    is_triggered := false
    triggered_price := none
    liquidity_side := .noLiquiditySide
    is_closed := false }

/-- A heap holding only the invalid-side order. -/
def hInvalidSide : Heap := fun _ => oInvalidSide

/-- C2 (counterexample): adding an order with an invalid side to a fresh
core raises, yet the orders index now holds an entry for it; deleting it
again raises, yet its index entry has been removed — the index is mutated
before the raise point, contradicting the claim that state is untouched. -/
theorem invalid_side_mutates_index_cex :
    (MatchingCore.add_order hInvalidSide MatchingCore.initial 0).2 = true
    ∧ (MatchingCore.add_order hInvalidSide MatchingCore.initial 0).1.orders
        = [(7, 0)]
    ∧ (MatchingCore.delete_order hInvalidSide
        (MatchingCore.add_order hInvalidSide MatchingCore.initial 0).1 0).2
        = true
    ∧ (MatchingCore.delete_order hInvalidSide
        (MatchingCore.add_order hInvalidSide MatchingCore.initial 0).1 0).1.orders
        = [] := by
  refine ⟨rfl, by decide, rfl, by decide⟩

/-- C2 (amended): with an order whose side is neither BUY nor SELL,
`add_order` and `delete_order` raise the invalid-enum error and leave both
side lists unchanged, but the orders index has already been mutated when
the error is raised: `add_order` has created (or overwritten) the entry
for the order's client order id, and `delete_order` has removed it. -/
theorem invalid_side_raise_effect (h : Heap) (c : MatchingCore)
    (r : OrderRef) (hs : (h r).side = .sideNone) :
    MatchingCore.add_order h c r
      = ({ c with orders := dictInsert c.orders (h r).client_order_id r }, true)
    ∧ MatchingCore.delete_order h c r
      = ({ c with orders := dictPop c.orders (h r).client_order_id }, true) := by
  constructor <;>
    simp [MatchingCore.add_order, MatchingCore._add_order,
      MatchingCore.delete_order, hs]

/-- C2 (witness): the amended statement evaluated on the concrete
invalid-side order and a fresh core. -/
theorem invalid_side_raise_effect_witness :
    (hInvalidSide 0).side = OrderSide.sideNone
    ∧ (MatchingCore.add_order hInvalidSide MatchingCore.initial 0
        = ({ MatchingCore.initial with
              orders := dictInsert MatchingCore.initial.orders
                (hInvalidSide 0).client_order_id 0 }, true)
      ∧ MatchingCore.delete_order hInvalidSide MatchingCore.initial 0
        = ({ MatchingCore.initial with
              orders := dictPop MatchingCore.initial.orders
                (hInvalidSide 0).client_order_id }, true)) :=
  ⟨rfl, invalid_side_raise_effect hInvalidSide MatchingCore.initial 0 rfl⟩

/-! Idempotence of `delete_order` (C8). -/

/-- Popping a key twice is the same as popping it once. -/
theorem dictPop_idem (d : List (Nat × OrderRef)) (k : Nat) :
    dictPop (dictPop d k) k = dictPop d k := by
  simp only [dictPop, List.filter_filter, Bool.and_self]

/-- Popping an absent key is a no-op. -/
theorem dictPop_of_not_contains (d : List (Nat × OrderRef)) (k : Nat)
    (hk : dictContains d k = false) : dictPop d k = d := by
  rw [dictPop, List.filter_eq_self]
  intro p hp
  simp only [dictContains, List.any_eq_false] at hk
  simpa using hk p hp

/-- Erasing an element occurring at most once, twice, is the same as
erasing it once. -/
theorem erase_idem_of_count_le_one (l : List OrderRef) (r : OrderRef)
    (hc : l.count r ≤ 1) : (l.erase r).erase r = l.erase r := by
  apply List.erase_of_not_mem
  rw [← List.count_eq_zero, List.count_erase_self]
  omega

/-- C8 (amended): `delete_order` is idempotent on every state in which the
order occurs at most once in each side list — in particular on every state
reachable without duplicate `add_order` calls — and deleting an order that
is not present at all is a no-op on the core state. -/
theorem delete_order_idem (h : Heap) (c : MatchingCore) (r : OrderRef)
    (hbid : c.orders_bid.count r ≤ 1) (hask : c.orders_ask.count r ≤ 1) :
    MatchingCore.delete_order h (MatchingCore.delete_order h c r).1 r
      = MatchingCore.delete_order h c r
    ∧ (MatchingCore.order_exists c (h r).client_order_id = false →
        r ∉ c.orders_bid → r ∉ c.orders_ask →
        (MatchingCore.delete_order h c r).1 = c) := by
  constructor
  · cases hs : (h r).side <;>
      simp [MatchingCore.delete_order, hs, dictPop_idem,
        erase_idem_of_count_le_one _ _ hbid,
        erase_idem_of_count_le_one _ _ hask]
  · intro hex hnb hna
    cases hs : (h r).side <;>
      simp [MatchingCore.delete_order, hs,
        dictPop_of_not_contains _ _ hex, List.erase_of_not_mem hnb,
        List.erase_of_not_mem hna]

/-- A plain BUY limit order used to build a duplicated state. -/
def oDup : Order :=
  { client_order_id := 5
    side := .buy
    order_type := .limit
    price := 100
    trigger_price := 0
    is_triggered := false
    triggered_price := none
    liquidity_side := .noLiquiditySide
    is_closed := false }

/-- A heap holding only `oDup`. -/
def hDup : Heap := fun _ => oDup

/-- The state reached by adding the same order object twice. -/
def cDup : MatchingCore :=
  (MatchingCore.add_order hDup
    (MatchingCore.add_order hDup MatchingCore.initial 0).1 0).1

/-- Adding the same order twice leaves it twice in the bid list while the
index holds one entry. -/
theorem cDup_eq :
    cDup = { MatchingCore.initial with
              orders := [(5, 0)], orders_bid := [0, 0] } := by
  simp [cDup, MatchingCore.add_order, MatchingCore._add_order,
    MatchingCore.initial, hDup, oDup, dictInsert,
    MatchingCore._sort_bid_orders, mergeSort_pair]

/-- C8 (witness): the amended idempotence statement evaluated on the fresh
core, where the order occurs zero times. -/
theorem delete_order_idem_witness :
    MatchingCore.initial.orders_bid.count 0 ≤ 1
    ∧ MatchingCore.initial.orders_ask.count 0 ≤ 1
    ∧ (MatchingCore.delete_order hDup
        (MatchingCore.delete_order hDup MatchingCore.initial 0).1 0
        = MatchingCore.delete_order hDup MatchingCore.initial 0
      ∧ (MatchingCore.order_exists MatchingCore.initial
            (hDup 0).client_order_id = false →
          0 ∉ MatchingCore.initial.orders_bid →
          0 ∉ MatchingCore.initial.orders_ask →
          (MatchingCore.delete_order hDup MatchingCore.initial 0).1
            = MatchingCore.initial)) :=
  ⟨by decide, by decide,
    delete_order_idem hDup MatchingCore.initial 0 (by decide) (by decide)⟩

/-- C8 (counterexample): on the reachable state `cDup`, in which the same
order was added twice, deleting it twice is not the same as deleting it
once — the second call removes the remaining list occurrence. -/
theorem delete_order_not_idem_cex :
    MatchingCore.delete_order hDup
      (MatchingCore.delete_order hDup cDup 0).1 0
      ≠ MatchingCore.delete_order hDup cDup 0 := by
  rw [cDup_eq]
  decide

/-! No deduplication in `add_order` (C10). -/

/-- After a dict assignment the key is present. -/
theorem dictContains_insert (d : List (Nat × OrderRef)) (k : Nat)
    (v : OrderRef) : dictContains (dictInsert d k v) k = true := by
  by_cases hc : d.any (fun p => p.1 = k)
  · rcases List.any_eq_true.mp hc with ⟨p, hp, hpk⟩
    rw [dictContains]
    refine List.any_eq_true.mpr ⟨(k, v), ?_, by simp⟩
    rw [dictInsert, if_pos hc]
    exact List.mem_map.mpr ⟨p, hp, by simp [of_decide_eq_true hpk]⟩
  · simp [dictInsert, dictContains, hc]

/-- After a pop the key is absent. -/
theorem dictContains_pop (d : List (Nat × OrderRef)) (k : Nat) :
    dictContains (dictPop d k) k = false := by
  simp [dictContains, dictPop, List.mem_filter]

/-- Assigning a fresh key appends the entry. -/
theorem dictInsert_fresh (d : List (Nat × OrderRef)) (k : Nat) (v : OrderRef)
    (hk : dictContains d k = false) : dictInsert d k v = d ++ [(k, v)] := by
  rw [dictInsert, if_neg]
  rw [dictContains] at hk
  simp [hk]

/-- Overwriting an existing key does not change the number of entries that
carry that key. -/
theorem length_filter_overwrite (d : List (Nat × OrderRef)) (k : Nat)
    (v : OrderRef) :
    ((d.map (fun p => if p.1 = k then (k, v) else p)).filter
        (fun p => p.1 = k)).length
      = (d.filter (fun p => p.1 = k)).length := by
  induction d with
  | nil => simp
  | cons a t ih => by_cases ha : a.1 = k <;> simp [ha, ih]

/-- The bid sort is a permutation, so it preserves occurrence counts. -/
theorem count_sort_bid (h : Heap) (l : List OrderRef) (r : OrderRef) :
    (MatchingCore._sort_bid_orders h l).count r = l.count r :=
  (List.mergeSort_perm l _).count_eq r

/-- The ask sort is a permutation, so it preserves occurrence counts. -/
theorem count_sort_ask (h : Heap) (l : List OrderRef) (r : OrderRef) :
    (MatchingCore._sort_ask_orders h l).count r = l.count r :=
  (List.mergeSort_perm l _).count_eq r

/-- The index after `add_order` is the dict assignment, for every side
(the assignment precedes the side dispatch). -/
theorem add_order_orders_proj (h : Heap) (c : MatchingCore) (r : OrderRef) :
    (MatchingCore.add_order h c r).1.orders
      = dictInsert c.orders (h r).client_order_id r := by
  cases hs : (h r).side <;>
    simp [MatchingCore.add_order, MatchingCore._add_order, hs]

/-- The bid list after adding a BUY order. -/
theorem add_order_bid_proj (h : Heap) (c : MatchingCore) (r : OrderRef)
    (hs : (h r).side = .buy) :
    (MatchingCore.add_order h c r).1.orders_bid
      = MatchingCore._sort_bid_orders h (c.orders_bid ++ [r]) := by
  simp [MatchingCore.add_order, MatchingCore._add_order, hs]

/-- The ask list is untouched by adding a BUY order. -/
theorem add_order_ask_of_buy (h : Heap) (c : MatchingCore) (r : OrderRef)
    (hs : (h r).side = .buy) :
    (MatchingCore.add_order h c r).1.orders_ask = c.orders_ask := by
  simp [MatchingCore.add_order, MatchingCore._add_order, hs]

/-- The ask list after adding a SELL order. -/
theorem add_order_ask_proj (h : Heap) (c : MatchingCore) (r : OrderRef)
    (hs : (h r).side = .sell) :
    (MatchingCore.add_order h c r).1.orders_ask
      = MatchingCore._sort_ask_orders h (c.orders_ask ++ [r]) := by
  simp [MatchingCore.add_order, MatchingCore._add_order, hs]

/-- The bid list is untouched by adding a SELL order. -/
theorem add_order_bid_of_sell (h : Heap) (c : MatchingCore) (r : OrderRef)
    (hs : (h r).side = .sell) :
    (MatchingCore.add_order h c r).1.orders_bid = c.orders_bid := by
  simp [MatchingCore.add_order, MatchingCore._add_order, hs]

/-- The index after `delete_order` is the dict pop, for every side. -/
theorem delete_order_orders_proj (h : Heap) (c : MatchingCore)
    (r : OrderRef) :
    (MatchingCore.delete_order h c r).1.orders
      = dictPop c.orders (h r).client_order_id := by
  cases hs : (h r).side <;> simp [MatchingCore.delete_order, hs]

/-- The bid list after deleting a BUY order. -/
theorem delete_order_bid_proj (h : Heap) (c : MatchingCore) (r : OrderRef)
    (hs : (h r).side = .buy) :
    (MatchingCore.delete_order h c r).1.orders_bid
      = c.orders_bid.erase r := by
  simp [MatchingCore.delete_order, hs]

/-- The ask list after deleting a SELL order. -/
theorem delete_order_ask_proj (h : Heap) (c : MatchingCore) (r : OrderRef)
    (hs : (h r).side = .sell) :
    (MatchingCore.delete_order h c r).1.orders_ask
      = c.orders_ask.erase r := by
  simp [MatchingCore.delete_order, hs]

/-- C10: `add_order` does not deduplicate. Adding an order twice leaves it
twice in its side list while the index holds a single entry for its client
order id; one `delete_order` then removes the index entry but only one list
occurrence, so `order_exists` is false while the order still appears in
`get_orders_bid` (for BUY) or `get_orders_ask` (for SELL). -/
theorem add_order_no_dedup (h : Heap) (c : MatchingCore) (r : OrderRef)
    (hfresh : MatchingCore.order_exists c (h r).client_order_id = false)
    (hnb : r ∉ c.orders_bid) (hna : r ∉ c.orders_ask) :
    ((h r).side = .buy →
      (MatchingCore.add_order h (MatchingCore.add_order h c r).1 r).1.orders_bid.count r = 2
      ∧ ((MatchingCore.add_order h (MatchingCore.add_order h c r).1 r).1.orders.filter
          (fun p => p.1 = (h r).client_order_id)).length = 1
      ∧ MatchingCore.order_exists
          (MatchingCore.add_order h (MatchingCore.add_order h c r).1 r).1
          (h r).client_order_id = true
      ∧ MatchingCore.order_exists
          (MatchingCore.delete_order h
            (MatchingCore.add_order h (MatchingCore.add_order h c r).1 r).1 r).1
          (h r).client_order_id = false
      ∧ (MatchingCore.delete_order h
          (MatchingCore.add_order h (MatchingCore.add_order h c r).1 r).1 r).1.orders_bid.count r = 1
      ∧ r ∈ MatchingCore.get_orders_bid
          (MatchingCore.delete_order h
            (MatchingCore.add_order h (MatchingCore.add_order h c r).1 r).1 r).1)
    ∧ ((h r).side = .sell →
      (MatchingCore.add_order h (MatchingCore.add_order h c r).1 r).1.orders_ask.count r = 2
      ∧ ((MatchingCore.add_order h (MatchingCore.add_order h c r).1 r).1.orders.filter
          (fun p => p.1 = (h r).client_order_id)).length = 1
      ∧ MatchingCore.order_exists
          (MatchingCore.add_order h (MatchingCore.add_order h c r).1 r).1
          (h r).client_order_id = true
      ∧ MatchingCore.order_exists
          (MatchingCore.delete_order h
            (MatchingCore.add_order h (MatchingCore.add_order h c r).1 r).1 r).1
          (h r).client_order_id = false
      ∧ (MatchingCore.delete_order h
          (MatchingCore.add_order h (MatchingCore.add_order h c r).1 r).1 r).1.orders_ask.count r = 1
      ∧ r ∈ MatchingCore.get_orders_ask
          (MatchingCore.delete_order h
            (MatchingCore.add_order h (MatchingCore.add_order h c r).1 r).1 r).1) := by
  have hfreshd : dictContains c.orders (h r).client_order_id = false := hfresh
  have hk0 : c.orders.filter (fun p => p.1 = (h r).client_order_id) = [] := by
    refine List.filter_eq_nil_iff.mpr ?_
    intro p hp
    rw [dictContains] at hfreshd
    exact (List.any_eq_false.mp hfreshd) p hp
  have hlen : ((MatchingCore.add_order h (MatchingCore.add_order h c r).1 r).1.orders.filter
      (fun p => p.1 = (h r).client_order_id)).length = 1 := by
    rw [add_order_orders_proj, add_order_orders_proj,
      dictInsert_fresh _ _ _ hfreshd]
    have hcont : (c.orders ++ [((h r).client_order_id, r)]).any
        (fun p => p.1 = (h r).client_order_id) = true := by simp
    rw [dictInsert, if_pos hcont, length_filter_overwrite,
      List.filter_append, hk0]
    simp
  have hex2 : MatchingCore.order_exists
      (MatchingCore.add_order h (MatchingCore.add_order h c r).1 r).1
      (h r).client_order_id = true := by
    show dictContains _ _ = true
    rw [add_order_orders_proj]
    exact dictContains_insert _ _ _
  have hex3 : MatchingCore.order_exists
      (MatchingCore.delete_order h
        (MatchingCore.add_order h (MatchingCore.add_order h c r).1 r).1 r).1
      (h r).client_order_id = false := by
    show dictContains _ _ = false
    rw [delete_order_orders_proj]
    exact dictContains_pop _ _
  constructor
  · intro hs
    have hcount2 : (MatchingCore.add_order h
        (MatchingCore.add_order h c r).1 r).1.orders_bid.count r = 2 := by
      rw [add_order_bid_proj h _ r hs, count_sort_bid, List.count_append,
        add_order_bid_proj h c r hs, count_sort_bid, List.count_append,
        List.count_eq_zero.mpr hnb]
      simp
    have hcount1 : (MatchingCore.delete_order h
        (MatchingCore.add_order h (MatchingCore.add_order h c r).1 r).1 r).1.orders_bid.count r = 1 := by
      rw [delete_order_bid_proj h _ r hs, List.count_erase_self, hcount2]
    refine ⟨hcount2, hlen, hex2, hex3, hcount1, ?_⟩
    show r ∈ (MatchingCore.delete_order h
      (MatchingCore.add_order h (MatchingCore.add_order h c r).1 r).1 r).1.orders_bid
    by_contra hn
    rw [List.count_eq_zero.mpr hn] at hcount1
    exact absurd hcount1 (by simp)
  · intro hs
    have hcount2 : (MatchingCore.add_order h
        (MatchingCore.add_order h c r).1 r).1.orders_ask.count r = 2 := by
      rw [add_order_ask_proj h _ r hs, count_sort_ask, List.count_append,
        add_order_ask_proj h c r hs, count_sort_ask, List.count_append,
        List.count_eq_zero.mpr hna]
      simp
    have hcount1 : (MatchingCore.delete_order h
        (MatchingCore.add_order h (MatchingCore.add_order h c r).1 r).1 r).1.orders_ask.count r = 1 := by
      rw [delete_order_ask_proj h _ r hs, List.count_erase_self, hcount2]
    refine ⟨hcount2, hlen, hex2, hex3, hcount1, ?_⟩
    show r ∈ (MatchingCore.delete_order h
      (MatchingCore.add_order h (MatchingCore.add_order h c r).1 r).1 r).1.orders_ask
    by_contra hn
    rw [List.count_eq_zero.mpr hn] at hcount1
    exact absurd hcount1 (by simp)

/-- C10 (witness): the no-dedup statement evaluated on the concrete BUY
limit order `oDup` added twice to a fresh core. -/
theorem add_order_no_dedup_witness :
    MatchingCore.order_exists MatchingCore.initial (hDup 0).client_order_id = false
    ∧ 0 ∉ MatchingCore.initial.orders_bid
    ∧ 0 ∉ MatchingCore.initial.orders_ask
    ∧ (((hDup 0).side = .buy →
        (MatchingCore.add_order hDup (MatchingCore.add_order hDup MatchingCore.initial 0).1 0).1.orders_bid.count 0 = 2
        ∧ ((MatchingCore.add_order hDup (MatchingCore.add_order hDup MatchingCore.initial 0).1 0).1.orders.filter
            (fun p => p.1 = (hDup 0).client_order_id)).length = 1
        ∧ MatchingCore.order_exists
            (MatchingCore.add_order hDup (MatchingCore.add_order hDup MatchingCore.initial 0).1 0).1
            (hDup 0).client_order_id = true
        ∧ MatchingCore.order_exists
            (MatchingCore.delete_order hDup
              (MatchingCore.add_order hDup (MatchingCore.add_order hDup MatchingCore.initial 0).1 0).1 0).1
            (hDup 0).client_order_id = false
        ∧ (MatchingCore.delete_order hDup
            (MatchingCore.add_order hDup (MatchingCore.add_order hDup MatchingCore.initial 0).1 0).1 0).1.orders_bid.count 0 = 1
        ∧ 0 ∈ MatchingCore.get_orders_bid
            (MatchingCore.delete_order hDup
              (MatchingCore.add_order hDup (MatchingCore.add_order hDup MatchingCore.initial 0).1 0).1 0).1)
      ∧ ((hDup 0).side = .sell →
        (MatchingCore.add_order hDup (MatchingCore.add_order hDup MatchingCore.initial 0).1 0).1.orders_ask.count 0 = 2
        ∧ ((MatchingCore.add_order hDup (MatchingCore.add_order hDup MatchingCore.initial 0).1 0).1.orders.filter
            (fun p => p.1 = (hDup 0).client_order_id)).length = 1
        ∧ MatchingCore.order_exists
            (MatchingCore.add_order hDup (MatchingCore.add_order hDup MatchingCore.initial 0).1 0).1
            (hDup 0).client_order_id = true
        ∧ MatchingCore.order_exists
            (MatchingCore.delete_order hDup
              (MatchingCore.add_order hDup (MatchingCore.add_order hDup MatchingCore.initial 0).1 0).1 0).1
            (hDup 0).client_order_id = false
        ∧ (MatchingCore.delete_order hDup
            (MatchingCore.add_order hDup (MatchingCore.add_order hDup MatchingCore.initial 0).1 0).1 0).1.orders_ask.count 0 = 1
        ∧ 0 ∈ MatchingCore.get_orders_ask
            (MatchingCore.delete_order hDup
              (MatchingCore.add_order hDup (MatchingCore.add_order hDup MatchingCore.initial 0).1 0).1 0).1)) :=
  ⟨by decide, by decide, by decide,
    add_order_no_dedup hDup MatchingCore.initial 0 (by decide) (by decide)
      (by decide)⟩

/-! Sortedness across operations and the triggered-key hazard (C1). -/

/-- A resting BUY STOP_LIMIT order: sort key `trigger_price = 100` while
untriggered, `price = 10` once triggered. -/
def oTrigBid : Order :=
  { client_order_id := 0
    side := .buy
    order_type := .stopLimit
    price := 10
    trigger_price := 100
    is_triggered := false
    triggered_price := none
    liquidity_side := .noLiquiditySide
    is_closed := false }

/-- A resting BUY STOP_MARKET order with sort key `trigger_price = 50`. -/
def oRestBid : Order :=
  { client_order_id := 1
    side := .buy
    order_type := .stopMarket
    price := 0
    trigger_price := 50
    is_triggered := false
    triggered_price := none
    liquidity_side := .noLiquiditySide
    is_closed := false }

/-- The heap holding the two resting bid orders. -/
def hTrig : Heap := fun x => if x = 0 then oTrigBid else oRestBid

/-- Callbacks following the documented contract: `trigger_stop_order` sets
`is_triggered = true` on the supplied order; the fill handlers do nothing. -/
def cbSetTriggered : Callbacks :=
  { trigger_stop_order := fun h c r =>
      (updateOrder h r (fun o => { o with is_triggered := true }), c)
    fill_market_order := fun h c _ => (h, c)
    fill_limit_order := fun h c _ => (h, c) }

/-- The state with ask = 150 after adding both bid orders. -/
def cTrig : MatchingCore :=
  (MatchingCore.add_order hTrig
    (MatchingCore.add_order hTrig
      (MatchingCore.initial.set_ask_raw 150) 0).1 1).1

/-- The explicit value of `cTrig`: both orders indexed, bids sorted
descending by key (100, then 50). -/
theorem cTrig_eq :
    cTrig = { MatchingCore.initial with
              ask_raw := 150
              is_ask_initialized := true
              orders := [(0, 0), (1, 1)]
              orders_bid := [0, 1] } := by
  simp [cTrig, MatchingCore.add_order, MatchingCore._add_order,
    MatchingCore.initial, MatchingCore.set_ask_raw, hTrig, oTrigBid,
    oRestBid, dictInsert, MatchingCore._sort_bid_orders, mergeSort_pair,
    sortKeyD, order_sort_key]

/-- The heap after `match_order` on the stop-limit order: triggered price
set, liquidity side determined, and `is_triggered` flipped by the trigger
callback. -/
def hTrigAfter : Heap :=
  updateOrder (updateOrder (updateOrder hTrig 0
    (fun o => { o with triggered_price := some o.trigger_price })) 0
    (fun o =>
      { o with
        liquidity_side := MatchingCore._determine_order_liquidity false o.side o.price o.trigger_price })) 0
    (fun o => { o with is_triggered := true })

/-- C1 (counterexample): from the reachable state `cTrig`, whose bid list
`[0, 1]` is sorted descending (keys 100, 50), one `match_order` call whose
trigger callback sets `is_triggered = true` on the resting STOP_LIMIT
order returns with the bid list unchanged but the order's sort key changed
from 100 to its limit price 10, so the bid list is no longer sorted
descending — the sortedness invariant fails at an observation point
outside `add_order`/`delete_order`. -/
theorem sorted_broken_by_trigger_cex :
    cTrig.orders_bid = [0, 1]
    ∧ bidsSorted hTrig cTrig.orders_bid
    ∧ MatchingCore.match_order cbSetTriggered hTrig cTrig 0 false
        = some (hTrigAfter, cTrig, [Event.triggerStopOrder 0])
    ∧ ¬ bidsSorted hTrigAfter cTrig.orders_bid := by
  refine ⟨by rw [cTrig_eq], ?_, ?_, ?_⟩
  · rw [cTrig_eq]
    show List.Pairwise (fun a b => sortKeyD hTrig b ≤ sortKeyD hTrig a) [0, 1]
    decide
  · rw [cTrig_eq]
    rfl
  · rw [cTrig_eq]
    show ¬ List.Pairwise
      (fun a b => sortKeyD hTrigAfter b ≤ sortKeyD hTrigAfter a) [0, 1]
    decide

/-- C1 (amended): sortedness of both side lists (descending for bids,
ascending for asks by `order_sort_key`) is (re-)established by `add_order`
and preserved by `delete_order`; it is not preserved by a trigger callback
that flips `is_triggered` on a resting STOP_LIMIT, TRAILING_STOP_LIMIT, or
LIMIT_IF_TOUCHED order, whose sort key changes without a re-sort. -/
theorem add_delete_preserve_sorted (h : Heap) (c : MatchingCore)
    (r : OrderRef) (hbid : bidsSorted h c.orders_bid)
    (hask : asksSorted h c.orders_ask) :
    (bidsSorted h (MatchingCore.add_order h c r).1.orders_bid
      ∧ asksSorted h (MatchingCore.add_order h c r).1.orders_ask)
    ∧ (bidsSorted h (MatchingCore.delete_order h c r).1.orders_bid
      ∧ asksSorted h (MatchingCore.delete_order h c r).1.orders_ask) := by
  refine ⟨⟨?_, ?_⟩, ⟨?_, ?_⟩⟩
  · cases hs : (h r).side
    · rw [add_order_bid_proj h c r hs]
      exact sorted_sort_bid h _
    · rw [add_order_bid_of_sell h c r hs]
      exact hbid
    · simpa [MatchingCore.add_order, MatchingCore._add_order, hs]
        using hbid
  · cases hs : (h r).side
    · rw [add_order_ask_of_buy h c r hs]
      exact hask
    · rw [add_order_ask_proj h c r hs]
      exact sorted_sort_ask h _
    · simpa [MatchingCore.add_order, MatchingCore._add_order, hs]
        using hask
  · cases hs : (h r).side
    · rw [delete_order_bid_proj h c r hs]
      exact List.Pairwise.sublist (List.erase_sublist r c.orders_bid) hbid
    · simpa [MatchingCore.delete_order, hs] using hbid
    · simpa [MatchingCore.delete_order, hs] using hbid
  · cases hs : (h r).side
    · simpa [MatchingCore.delete_order, hs] using hask
    · rw [delete_order_ask_proj h c r hs]
      exact List.Pairwise.sublist (List.erase_sublist r c.orders_ask) hask
    · simpa [MatchingCore.delete_order, hs] using hask

/-- C1 (witness): sortedness preservation evaluated on the fresh core and
the concrete stop-limit heap. -/
theorem add_delete_preserve_sorted_witness :
    bidsSorted hTrig MatchingCore.initial.orders_bid
    ∧ asksSorted hTrig MatchingCore.initial.orders_ask
    ∧ ((bidsSorted hTrig (MatchingCore.add_order hTrig MatchingCore.initial 0).1.orders_bid
        ∧ asksSorted hTrig (MatchingCore.add_order hTrig MatchingCore.initial 0).1.orders_ask)
      ∧ (bidsSorted hTrig (MatchingCore.delete_order hTrig MatchingCore.initial 0).1.orders_bid
        ∧ asksSorted hTrig (MatchingCore.delete_order hTrig MatchingCore.initial 0).1.orders_ask)) :=
  ⟨List.Pairwise.nil, List.Pairwise.nil,
    add_delete_preserve_sorted hTrig MatchingCore.initial 0
      List.Pairwise.nil List.Pairwise.nil⟩

/-- C3: for an untriggered STOP_LIMIT or TRAILING_STOP_LIMIT order,
`match_order` is a no-op unless `is_stop_triggered` holds; when it holds,
the order passed to the trigger callback already has its triggered price
set to `trigger_price` and its liquidity side assigned by the
determination rule; the trigger callback is invoked, and afterwards — if
`is_limit_matched` holds on the then-current state — the liquidity side is
overwritten to TAKER and `fill_limit_order` is invoked, else no fill
callback runs. -/
theorem match_stop_limit_characterization (cb : Callbacks) (h : Heap)
    (c : MatchingCore) (r : OrderRef) (init : Bool)
    (htype : (h r).order_type = .stopLimit
      ∨ (h r).order_type = .trailingStopLimit)
    (huntrig : (h r).is_triggered = false) :
    (MatchingCore.is_stop_triggered c (h r).side (h r).trigger_price
        = some false →
      MatchingCore.match_order cb h c r init = some (h, c, []))
    ∧ (MatchingCore.is_stop_triggered c (h r).side (h r).trigger_price
        = some true →
      let h1 := updateOrder h r
        (fun o => { o with triggered_price := some o.trigger_price })
      let h2 := updateOrder h1 r (fun o =>
        { o with liquidity_side := (MatchingCore._determine_order_liquidity
            init o.side o.price o.trigger_price) })
      let p := cb.trigger_stop_order h2 c r
      (h2 r).triggered_price = some ((h r).trigger_price)
      ∧ (h2 r).liquidity_side
          = MatchingCore._determine_order_liquidity init (h r).side
              (h r).price (h r).trigger_price
      ∧ match MatchingCore.is_limit_matched p.2 (p.1 r).side (p.1 r).price with
        | some true =>
            MatchingCore.match_order cb h c r init
              = (let q := cb.fill_limit_order
                  (updateOrder p.1 r
                    (fun o => { o with liquidity_side := .taker })) p.2 r
                 some (q.1, q.2,
                   [Event.triggerStopOrder r, Event.fillLimitOrder r]))
        | some false =>
            MatchingCore.match_order cb h c r init
              = some (p.1, p.2, [Event.triggerStopOrder r])
        | none => MatchingCore.match_order cb h c r init = none) := by
  have hd : MatchingCore.match_order cb h c r init
      = MatchingCore.match_stop_limit_order cb h c r init := by
    rcases htype with ht | ht <;> simp [MatchingCore.match_order, ht]
  constructor
  · intro hst
    rw [hd]
    simp [MatchingCore.match_stop_limit_order, huntrig, hst]
  · intro hst
    intro h1 h2 p
    refine ⟨by simp [h2, h1, updateOrder], by simp [h2, h1, updateOrder], ?_⟩
    rcases hm : MatchingCore.is_limit_matched p.2 (p.1 r).side (p.1 r).price
      with _ | b
    · rw [hd]
      simp only [MatchingCore.match_stop_limit_order, huntrig, hst]
      simp only [Bool.false_eq_true, if_false]
      simp only [h1, h2, p] at hm
      simp [hm]
    · cases b
      · rw [hd]
        simp only [MatchingCore.match_stop_limit_order, huntrig, hst]
        simp only [Bool.false_eq_true, if_false]
        simp only [h1, h2, p] at hm
        simp [hm]
      · rw [hd]
        simp only [MatchingCore.match_stop_limit_order, huntrig, hst]
        simp only [Bool.false_eq_true, if_false]
        simp only [h1, h2, p] at hm
        simp [hm]

/-- With a valid side the marketability predicate never raises. -/
theorem is_limit_matched_ne_none (c : MatchingCore) (s : OrderSide) (p : Int)
    (hs : s = .buy ∨ s = .sell) :
    MatchingCore.is_limit_matched c s p ≠ none := by
  rcases hs with hs | hs <;> subst hs <;>
    simp [MatchingCore.is_limit_matched] <;> split <;> simp

/-- C6: for an untriggered LIMIT_IF_TOUCHED order whose touch condition
holds (with callbacks that, per the documented contract, do not rewrite
the order's side or triggered price), `match_order` completes with the
trigger callback invoked — possibly followed by a fill — and the order's
triggered price afterwards is unchanged when `initial` is true and equals
`trigger_price` when `initial` is false; the same order as a STOP_LIMIT
instead has its triggered price set to `trigger_price` unconditionally,
for either value of `initial`. -/
theorem limit_if_touched_triggered_price_asymmetry (cb : Callbacks)
    (h : Heap) (c : MatchingCore) (r : OrderRef) (init : Bool)
    (htype : (h r).order_type = .limitIfTouched)
    (huntrig : (h r).is_triggered = false)
    (hside : (h r).side = .buy ∨ (h r).side = .sell)
    (htouch : MatchingCore.is_touch_triggered c (h r).side
        (h r).trigger_price = some true)
    (hcb_tp : ∀ h' c', ((cb.trigger_stop_order h' c' r).1 r).triggered_price
        = (h' r).triggered_price)
    (hcb_side : ∀ h' c', ((cb.trigger_stop_order h' c' r).1 r).side
        = (h' r).side)
    (hfill_tp : ∀ h' c', ((cb.fill_limit_order h' c' r).1 r).triggered_price
        = (h' r).triggered_price) :
    (∃ hh cc evs, MatchingCore.match_order cb h c r init = some (hh, cc, evs)
      ∧ (hh r).triggered_price
          = (if init then (h r).triggered_price
            else some ((h r).trigger_price))
      ∧ (evs = [Event.triggerStopOrder r]
        ∨ evs = [Event.triggerStopOrder r, Event.fillLimitOrder r]))
    ∧ (MatchingCore.is_stop_triggered c (h r).side (h r).trigger_price
          = some true →
      ∃ hh cc evs, MatchingCore.match_order cb
          (updateOrder h r (fun o => { o with order_type := .stopLimit }))
          c r init = some (hh, cc, evs)
        ∧ (hh r).triggered_price = some ((h r).trigger_price)) := by
  constructor
  · have hd : MatchingCore.match_order cb h c r init
        = MatchingCore.match_limit_if_touched_order cb h c r init := by
      simp [MatchingCore.match_order, htype]
    rw [hd, MatchingCore.match_limit_if_touched_order]
    rw [huntrig, htouch]
    cases init
    · simp only [Bool.false_eq_true, if_false, Bool.not_false, if_true]
      generalize hP : cb.trigger_stop_order
        (updateOrder
          (updateOrder h r
            (fun o => { o with triggered_price := some o.trigger_price })) r
          (fun o => { o with liquidity_side := (MatchingCore._determine_order_liquidity false o.side o.price o.trigger_price) }))
        c r = P
      have hPside : (P.1 r).side = (h r).side := by
        rw [← hP, hcb_side]
        simp [updateOrder]
      have hPtp : (P.1 r).triggered_price = some ((h r).trigger_price) := by
        rw [← hP, hcb_tp]
        simp [updateOrder]
      rcases hm : MatchingCore.is_limit_matched P.2 (P.1 r).side (P.1 r).price
        with _ | b
      · exact absurd hm (is_limit_matched_ne_none _ _ _
          (by rw [hPside]; exact hside))
      · cases b
        · simp only [hm]
          exact ⟨P.1, P.2, [Event.triggerStopOrder r], rfl,
            by simp [hPtp], Or.inl rfl⟩
        · simp only [hm]
          refine ⟨_, _, [Event.triggerStopOrder r, Event.fillLimitOrder r],
            rfl, ?_, Or.inr rfl⟩
          rw [hfill_tp]
          simp [updateOrder, hPtp]
    · simp only [Bool.not_true, Bool.false_eq_true, if_false]
      generalize hP : cb.trigger_stop_order
        (updateOrder h r
          (fun o => { o with liquidity_side := (MatchingCore._determine_order_liquidity true o.side o.price o.trigger_price) }))
        c r = P
      have hPside : (P.1 r).side = (h r).side := by
        rw [← hP, hcb_side]
        simp [updateOrder]
      have hPtp : (P.1 r).triggered_price = (h r).triggered_price := by
        rw [← hP, hcb_tp]
        simp [updateOrder]
      rcases hm : MatchingCore.is_limit_matched P.2 (P.1 r).side (P.1 r).price
        with _ | b
      · exact absurd hm (is_limit_matched_ne_none _ _ _
          (by rw [hPside]; exact hside))
      · cases b
        · simp only [hm]
          exact ⟨P.1, P.2, [Event.triggerStopOrder r], rfl,
            by simp [hPtp], Or.inl rfl⟩
        · simp only [hm]
          refine ⟨_, _, [Event.triggerStopOrder r, Event.fillLimitOrder r],
            rfl, ?_, Or.inr rfl⟩
          rw [hfill_tp]
          simp [updateOrder, hPtp]
  · intro hstop
    have hty : ((updateOrder h r
        (fun o => { o with order_type := .stopLimit })) r).order_type
        = OrderType.stopLimit := by
      simp [updateOrder]
    have hd : MatchingCore.match_order cb
        (updateOrder h r (fun o => { o with order_type := .stopLimit }))
        c r init
        = MatchingCore.match_stop_limit_order cb
            (updateOrder h r (fun o => { o with order_type := .stopLimit }))
            c r init := by
      simp [MatchingCore.match_order, hty]
    have htr : ((updateOrder h r
        (fun o => { o with order_type := .stopLimit })) r).is_triggered
        = false := by
      simp [updateOrder, huntrig]
    have hsd : ((updateOrder h r
        (fun o => { o with order_type := .stopLimit })) r).side
        = (h r).side := by
      simp [updateOrder]
    have hgp : ((updateOrder h r
        (fun o => { o with order_type := .stopLimit })) r).trigger_price
        = (h r).trigger_price := by
      simp [updateOrder]
    rw [hd, MatchingCore.match_stop_limit_order]
    rw [htr, hsd, hgp, hstop]
    simp only [Bool.false_eq_true, if_false]
    generalize hP : cb.trigger_stop_order
      (updateOrder
        (updateOrder
          (updateOrder h r (fun o => { o with order_type := .stopLimit })) r
          (fun o => { o with triggered_price := some o.trigger_price })) r
        (fun o => { o with liquidity_side := (MatchingCore._determine_order_liquidity init o.side o.price o.trigger_price) }))
      c r = P
    have hPside : (P.1 r).side = (h r).side := by
      rw [← hP, hcb_side]
      simp [updateOrder]
    have hPtp : (P.1 r).triggered_price = some ((h r).trigger_price) := by
      rw [← hP, hcb_tp]
      simp [updateOrder]
    rcases hm : MatchingCore.is_limit_matched P.2 (P.1 r).side (P.1 r).price
      with _ | b
    · exact absurd hm (is_limit_matched_ne_none _ _ _
        (by rw [hPside]; exact hside))
    · cases b
      · simp only [hm]
        exact ⟨P.1, P.2, [Event.triggerStopOrder r], rfl, hPtp⟩
      · simp only [hm]
        refine ⟨_, _, [Event.triggerStopOrder r, Event.fillLimitOrder r],
          rfl, ?_⟩
        rw [hfill_tp]
        simp [updateOrder, hPtp]

/-- C3 (witness): the stop-limit characterization evaluated on the
concrete stop-limit order over a fresh core. -/
theorem match_stop_limit_characterization_witness :
    ((hTrig 0).order_type = OrderType.stopLimit
      ∨ (hTrig 0).order_type = OrderType.trailingStopLimit)
    ∧ (hTrig 0).is_triggered = false
    ∧ ((MatchingCore.is_stop_triggered MatchingCore.initial (hTrig 0).side
          (hTrig 0).trigger_price = some false →
        MatchingCore.match_order cbSetTriggered hTrig MatchingCore.initial 0
          false = some (hTrig, MatchingCore.initial, []))
      ∧ (MatchingCore.is_stop_triggered MatchingCore.initial (hTrig 0).side
          (hTrig 0).trigger_price = some true →
        let h1 := updateOrder hTrig 0
          (fun o => { o with triggered_price := some o.trigger_price })
        let h2 := updateOrder h1 0 (fun o =>
          { o with liquidity_side := (MatchingCore._determine_order_liquidity
              false o.side o.price o.trigger_price) })
        let p := cbSetTriggered.trigger_stop_order h2 MatchingCore.initial 0
        (h2 0).triggered_price = some ((hTrig 0).trigger_price)
        ∧ (h2 0).liquidity_side
            = MatchingCore._determine_order_liquidity false (hTrig 0).side
                (hTrig 0).price (hTrig 0).trigger_price
        ∧ match MatchingCore.is_limit_matched p.2 (p.1 0).side (p.1 0).price with
          | some true =>
              MatchingCore.match_order cbSetTriggered hTrig
                MatchingCore.initial 0 false
                = (let q := cbSetTriggered.fill_limit_order
                    (updateOrder p.1 0
                      (fun o => { o with liquidity_side := .taker })) p.2 0
                   some (q.1, q.2,
                     [Event.triggerStopOrder 0, Event.fillLimitOrder 0]))
          | some false =>
              MatchingCore.match_order cbSetTriggered hTrig
                MatchingCore.initial 0 false
                = some (p.1, p.2, [Event.triggerStopOrder 0])
          | none => MatchingCore.match_order cbSetTriggered hTrig
              MatchingCore.initial 0 false = none)) :=
  ⟨Or.inl rfl, rfl,
    match_stop_limit_characterization cbSetTriggered hTrig
      MatchingCore.initial 0 false (Or.inl rfl) rfl⟩

/-- A BUY LIMIT_IF_TOUCHED order (touch at 10050, limit 9950). -/
def oLit : Order :=
  { client_order_id := 2
    side := .buy
    order_type := .limitIfTouched
    price := 9950
    trigger_price := 10050
    is_triggered := false
    triggered_price := none
    liquidity_side := .noLiquiditySide
    is_closed := false }

/-- A heap holding only `oLit`. -/
def hLit : Heap := fun _ => oLit

/-- C6 (witness): the asymmetry statement evaluated with ask = 10000 (the
touch condition holds) under the triggering callbacks, at `initial =
true`. -/
theorem limit_if_touched_triggered_price_asymmetry_witness :
    (hLit 0).order_type = OrderType.limitIfTouched
    ∧ (hLit 0).is_triggered = false
    ∧ ((hLit 0).side = OrderSide.buy ∨ (hLit 0).side = OrderSide.sell)
    ∧ MatchingCore.is_touch_triggered (MatchingCore.initial.set_ask_raw 10000)
        (hLit 0).side (hLit 0).trigger_price = some true
    ∧ ((∃ hh cc evs,
        MatchingCore.match_order cbSetTriggered hLit
          (MatchingCore.initial.set_ask_raw 10000) 0 true = some (hh, cc, evs)
        ∧ (hh 0).triggered_price
            = (if true then (hLit 0).triggered_price
              else some ((hLit 0).trigger_price))
        ∧ (evs = [Event.triggerStopOrder 0]
          ∨ evs = [Event.triggerStopOrder 0, Event.fillLimitOrder 0]))
      ∧ (MatchingCore.is_stop_triggered (MatchingCore.initial.set_ask_raw 10000)
            (hLit 0).side (hLit 0).trigger_price = some true →
        ∃ hh cc evs, MatchingCore.match_order cbSetTriggered
            (updateOrder hLit 0
              (fun o => { o with order_type := .stopLimit }))
            (MatchingCore.initial.set_ask_raw 10000) 0 true
            = some (hh, cc, evs)
          ∧ (hh 0).triggered_price = some ((hLit 0).trigger_price))) :=
  ⟨rfl, rfl, Or.inl rfl, by decide,
    limit_if_touched_triggered_price_asymmetry cbSetTriggered hLit
      (MatchingCore.initial.set_ask_raw 10000) 0 true rfl rfl (Or.inl rfl)
      (by decide)
      (fun h' c' => by simp [cbSetTriggered, updateOrder])
      (fun h' c' => by simp [cbSetTriggered, updateOrder])
      (fun h' c' => rfl)⟩

/-- The order reference an event is about (every callback invocation in the
matching routines passes the order being matched). -/
def eventRef : Event → OrderRef
  | .triggerStopOrder r => r
  | .fillMarketOrder r => r
  | .fillLimitOrder r => r

/-- Every event emitted by `match_order` references the matched order. -/
theorem match_order_events (cb : Callbacks) (h : Heap) (c : MatchingCore)
    (r : OrderRef) (init : Bool) (hh : Heap) (cc : MatchingCore)
    (evs : List Event)
    (hres : MatchingCore.match_order cb h c r init = some (hh, cc, evs)) :
    ∀ e ∈ evs, eventRef e = r := by
  rw [MatchingCore.match_order] at hres
  split at hres <;>
    [rw [MatchingCore.match_limit_order] at hres;
     rw [MatchingCore.match_limit_order] at hres;
     rw [MatchingCore.match_stop_limit_order] at hres;
     rw [MatchingCore.match_stop_limit_order] at hres;
     rw [MatchingCore.match_stop_market_order] at hres;
     rw [MatchingCore.match_stop_market_order] at hres;
     rw [MatchingCore.match_limit_if_touched_order] at hres;
     rw [MatchingCore.match_market_if_touched_order] at hres;
     exact Option.noConfusion hres] <;>
  · repeat'
      first
        | split at hres
        | dsimp only [] at hres
    all_goals
      first
        | exact Option.noConfusion hres
        | (simp only [Option.some.injEq, Prod.mk.injEq] at hres
           obtain ⟨h1, h2, h3⟩ := hres
           subst h3
           intro e he
           first
             | exact absurd he (List.not_mem_nil e)
             | (simp only [List.mem_singleton] at he
                subst he
                rfl)
             | (simp only [List.mem_cons, List.not_mem_nil, or_false] at he
                rcases he with he | he <;> subst he <;> rfl))

/-- Callbacks that never rewrite the `is_closed` flag of the order at `r`
(they may close or mutate any other order, and mutate `r`'s other
fields). -/
def preservesClosed (cb : Callbacks) (r : OrderRef) : Prop :=
  (∀ h c x, ((cb.trigger_stop_order h c x).1 r).is_closed = (h r).is_closed)
  ∧ (∀ h c x, ((cb.fill_market_order h c x).1 r).is_closed = (h r).is_closed)
  ∧ (∀ h c x, ((cb.fill_limit_order h c x).1 r).is_closed = (h r).is_closed)

/-- Matching an order other than `r` leaves `r`'s closed flag unchanged
when the callbacks preserve it. -/
theorem match_order_preserves_closed (cb : Callbacks) (h : Heap)
    (c : MatchingCore) (r' : OrderRef) (init : Bool) (hh : Heap)
    (cc : MatchingCore) (evs : List Event) (r : OrderRef)
    (hpc : preservesClosed cb r) (hne : r' ≠ r)
    (hres : MatchingCore.match_order cb h c r' init = some (hh, cc, evs)) :
    (hh r).is_closed = (h r).is_closed := by
  obtain ⟨hp1, hp2, hp3⟩ := hpc
  rw [MatchingCore.match_order] at hres
  split at hres <;>
    [rw [MatchingCore.match_limit_order] at hres;
     rw [MatchingCore.match_limit_order] at hres;
     rw [MatchingCore.match_stop_limit_order] at hres;
     rw [MatchingCore.match_stop_limit_order] at hres;
     rw [MatchingCore.match_stop_market_order] at hres;
     rw [MatchingCore.match_stop_market_order] at hres;
     rw [MatchingCore.match_limit_if_touched_order] at hres;
     rw [MatchingCore.match_market_if_touched_order] at hres;
     exact Option.noConfusion hres] <;>
  · repeat'
      first
        | split at hres
        | dsimp only [] at hres
    all_goals
      first
        | exact Option.noConfusion hres
        | (simp only [Option.some.injEq, Prod.mk.injEq] at hres
           obtain ⟨h1, h2, h3⟩ := hres
           subst h1
           simp [hp1, hp2, hp3, updateOrder, Ne.symm hne])

/-- Every event emitted by a sweep is inherited from the accumulator or
references an order in the remaining snapshot. -/
theorem sweep_events (cb : Callbacks) (todo : List OrderRef) :
    ∀ (h : Heap) (c : MatchingCore) (evs0 : List Event) (hh : Heap)
      (cc : MatchingCore) (evs : List Event),
      MatchingCore.sweep cb todo h c evs0 = some (hh, cc, evs) →
      ∀ e ∈ evs, e ∈ evs0 ∨ eventRef e ∈ todo := by
  induction todo with
  | nil =>
      intro h c evs0 hh cc evs hres e he
      simp only [MatchingCore.sweep, Option.some.injEq, Prod.mk.injEq]
        at hres
      obtain ⟨-, -, h3⟩ := hres
      subst h3
      exact Or.inl he
  | cons r' rest ih =>
      intro h c evs0 hh cc evs hres e he
      rw [MatchingCore.sweep] at hres
      split at hres
      · rcases ih h c evs0 hh cc evs hres e he with h0 | hr
        · exact Or.inl h0
        · exact Or.inr (List.mem_cons_of_mem _ hr)
      · split at hres
        · exact Option.noConfusion hres
        · rename_i h1 c1 evs1 heq
          rcases ih _ _ _ _ _ _ hres e he with h0 | hr
          · rcases List.mem_append.mp h0 with h0 | h0
            · exact Or.inl h0
            · refine Or.inr ?_
              rw [match_order_events cb h c r' false h1 c1 evs1 heq e h0]
              exact List.mem_cons_self _ _
          · exact Or.inr (List.mem_cons_of_mem _ hr)

/-- An order that is closed at the start of a sweep, and whose closed flag
the callbacks preserve, receives no events during the sweep. -/
theorem sweep_closed_skipped (cb : Callbacks) (r : OrderRef)
    (hpc : preservesClosed cb r) (todo : List OrderRef) :
    ∀ (h : Heap) (c : MatchingCore) (evs0 : List Event) (hh : Heap)
      (cc : MatchingCore) (evs : List Event),
      (h r).is_closed = true →
      MatchingCore.sweep cb todo h c evs0 = some (hh, cc, evs) →
      ∀ e ∈ evs, eventRef e = r → e ∈ evs0 := by
  induction todo with
  | nil =>
      intro h c evs0 hh cc evs _ hres e he _
      simp only [MatchingCore.sweep, Option.some.injEq, Prod.mk.injEq]
        at hres
      obtain ⟨-, -, h3⟩ := hres
      subst h3
      exact he
  | cons r' rest ih =>
      intro h c evs0 hh cc evs hcl hres e he her
      rw [MatchingCore.sweep] at hres
      split at hres
      · exact ih h c evs0 hh cc evs hcl hres e he her
      · rename_i hop
        split at hres
        · exact Option.noConfusion hres
        · rename_i h1 c1 evs1 heq
          have hne : r' ≠ r := by
            intro hrr
            rw [hrr, hcl] at hop
            exact hop rfl
          have hcl1 : (h1 r).is_closed = true := by
            rw [match_order_preserves_closed cb h c r' false h1 c1 evs1 r
              hpc hne heq]
            exact hcl
          have := ih h1 c1 (evs0 ++ evs1) hh cc evs hcl1 hres e he her
          rcases List.mem_append.mp this with h0 | h0
          · exact h0
          · exact absurd
              (match_order_events cb h c r' false h1 c1 evs1 heq e h0)
              (by rw [her]; exact fun hx => hne hx.symm)

/-- First resting BUY LIMIT order (price 100) for the snapshot scenario. -/
def oL1 : Order :=
  { client_order_id := 11
    side := .buy
    order_type := .limit
    price := 100
    trigger_price := 0
    is_triggered := false
    triggered_price := none
    liquidity_side := .noLiquiditySide
    is_closed := false }

/-- Second resting BUY LIMIT order (price 90). -/
def oL2 : Order :=
  { client_order_id := 12
    side := .buy
    order_type := .limit
    price := 90
    trigger_price := 0
    is_triggered := false
    triggered_price := none
    liquidity_side := .noLiquiditySide
    is_closed := false }

/-- Heap for the snapshot scenario: ref 1 is `oL1`, ref 2 is `oL2`. -/
def hSnap : Heap := fun x => if x = 1 then oL1 else oL2

/-- Callbacks whose limit-fill handler closes the filled order and also
closes the order at ref 2 (a mid-sweep mutation). -/
def cbClose : Callbacks :=
  { trigger_stop_order := fun h c _ => (h, c)
    fill_market_order := fun h c _ => (h, c)
    fill_limit_order := fun h c x =>
      (updateOrder (updateOrder h x (fun o => { o with is_closed := true })) 2
        (fun o => { o with is_closed := true }), c) }

/-- A state holding both limit orders on the bid side with ask = 50, so
both are marketable. -/
def cSnap : MatchingCore :=
  { bid_raw := 0
    ask_raw := 50
    last_raw := 0
    is_bid_initialized := false
    is_ask_initialized := true
    is_last_initialized := false
    orders := [(11, 1), (12, 2)]
    orders_bid := [1, 2]
    orders_ask := [] }

/-- The heap after the sweep: order 1 filled (maker) and closed, order 2
closed by the callback without ever being filled. -/
def hSnapAfter : Heap :=
  updateOrder (updateOrder (updateOrder hSnap 1
    (fun o => { o with liquidity_side := .maker })) 1
    (fun o => { o with is_closed := true })) 2
    (fun o => { o with is_closed := true })

/-- The scenario sweep: only order 1 is filled; order 2, closed by order
1's fill callback, is skipped at its turn. -/
theorem iterate_scenario_eq :
    MatchingCore.iterate cbClose hSnap cSnap 0
      = some (hSnapAfter, cSnap, [Event.fillLimitOrder 1]) := rfl

/-- C7: a sweep only ever emits events for orders that were in
`orders_bid ++ orders_ask` when `iterate` was entered (orders added by
callbacks during the sweep are never matched in that sweep); an order
closed at entry — with callbacks that do not un-close it — receives no
events (it is skipped); and in the concrete mid-sweep scenario, an order
closed by an earlier fill callback in the same sweep is skipped at its
own turn. -/
theorem iterate_snapshot_semantics (cb : Callbacks) (h : Heap)
    (c : MatchingCore) (t : Nat) (hh : Heap) (cc : MatchingCore)
    (evs : List Event)
    (hres : MatchingCore.iterate cb h c t = some (hh, cc, evs)) :
    (∀ e ∈ evs, eventRef e ∈ c.orders_bid ++ c.orders_ask)
    ∧ (∀ r, preservesClosed cb r → (h r).is_closed = true →
        ∀ e ∈ evs, eventRef e ≠ r)
    ∧ MatchingCore.iterate cbClose hSnap cSnap 0
        = some (hSnapAfter, cSnap, [Event.fillLimitOrder 1]) := by
  rw [MatchingCore.iterate] at hres
  refine ⟨?_, ?_, iterate_scenario_eq⟩
  · intro e he
    rcases sweep_events cb (c.orders_bid ++ c.orders_ask) h c [] hh cc evs
        hres e he with h0 | h0
    · exact absurd h0 (List.not_mem_nil e)
    · exact h0
  · intro r hpc hcl e he her
    exact absurd
      (sweep_closed_skipped cb r hpc (c.orders_bid ++ c.orders_ask) h c []
        hh cc evs hcl hres e he her)
      (List.not_mem_nil e)

/-- C7 (witness): the snapshot-semantics statement evaluated on the
concrete scenario sweep. -/
theorem iterate_snapshot_semantics_witness :
    MatchingCore.iterate cbClose hSnap cSnap 0
      = some (hSnapAfter, cSnap, [Event.fillLimitOrder 1])
    ∧ ((∀ e ∈ [Event.fillLimitOrder 1],
        eventRef e ∈ cSnap.orders_bid ++ cSnap.orders_ask)
      ∧ (∀ r, preservesClosed cbClose r → (hSnap r).is_closed = true →
          ∀ e ∈ [Event.fillLimitOrder 1], eventRef e ≠ r)
      ∧ MatchingCore.iterate cbClose hSnap cSnap 0
          = some (hSnapAfter, cSnap, [Event.fillLimitOrder 1])) :=
  ⟨iterate_scenario_eq,
    iterate_snapshot_semantics cbClose hSnap cSnap 0 hSnapAfter cSnap
      [Event.fillLimitOrder 1] iterate_scenario_eq⟩

/-- Overwrite only the last-price fields of a core: the two states differ
exactly in `last_raw` and `is_last_initialized`. -/
def setLastFields (c : MatchingCore) (v : Int) (b : Bool) : MatchingCore :=
  { c with last_raw := v, is_last_initialized := b }

/-- Callbacks that treat two cores differing only in the last-price fields
uniformly (they may read and mutate everything else). -/
def lastOblivious (cb : Callbacks) : Prop :=
  ∀ v b h c r,
    cb.trigger_stop_order h (setLastFields c v b) r
      = ((cb.trigger_stop_order h c r).1,
          setLastFields (cb.trigger_stop_order h c r).2 v b)
    ∧ cb.fill_market_order h (setLastFields c v b) r
      = ((cb.fill_market_order h c r).1,
          setLastFields (cb.fill_market_order h c r).2 v b)
    ∧ cb.fill_limit_order h (setLastFields c v b) r
      = ((cb.fill_limit_order h c r).1,
          setLastFields (cb.fill_limit_order h c r).2 v b)

/-- The marketability predicate ignores the last-price fields. -/
theorem is_limit_matched_setLast (c : MatchingCore) (v : Int) (b : Bool)
    (s : OrderSide) (p : Int) :
    MatchingCore.is_limit_matched (setLastFields c v b) s p
      = MatchingCore.is_limit_matched c s p := by
  cases s <;> simp [MatchingCore.is_limit_matched, setLastFields]

/-- The stop predicate ignores the last-price fields. -/
theorem is_stop_triggered_setLast (c : MatchingCore) (v : Int) (b : Bool)
    (s : OrderSide) (p : Int) :
    MatchingCore.is_stop_triggered (setLastFields c v b) s p
      = MatchingCore.is_stop_triggered c s p := by
  cases s <;> simp [MatchingCore.is_stop_triggered, setLastFields]

/-- The touch predicate ignores the last-price fields. -/
theorem is_touch_triggered_setLast (c : MatchingCore) (v : Int) (b : Bool)
    (s : OrderSide) (p : Int) :
    MatchingCore.is_touch_triggered (setLastFields c v b) s p
      = MatchingCore.is_touch_triggered c s p := by
  cases s <;> simp [MatchingCore.is_touch_triggered, setLastFields]

/-- `match_limit_order` commutes with overwriting the last-price fields. -/
theorem match_limit_order_setLast (cb : Callbacks) (h : Heap)
    (c : MatchingCore) (r : OrderRef) (v : Int) (b : Bool)
    (hob : lastOblivious cb) :
    MatchingCore.match_limit_order cb h (setLastFields c v b) r
      = (MatchingCore.match_limit_order cb h c r).map
          (fun x => (x.1, setLastFields x.2.1 v b, x.2.2)) := by
  rw [MatchingCore.match_limit_order, MatchingCore.match_limit_order,
    is_limit_matched_setLast]
  rcases hm : MatchingCore.is_limit_matched c (h r).side (h r).price
    with _ | bb
  · rfl
  · cases bb
    · rfl
    · dsimp only []
      rw [(hob v b _ _ _).2.2]
      rfl

/-- `match_stop_market_order` commutes with overwriting the last-price
fields. -/
theorem match_stop_market_order_setLast (cb : Callbacks) (h : Heap)
    (c : MatchingCore) (r : OrderRef) (v : Int) (b : Bool)
    (hob : lastOblivious cb) :
    MatchingCore.match_stop_market_order cb h (setLastFields c v b) r
      = (MatchingCore.match_stop_market_order cb h c r).map
          (fun x => (x.1, setLastFields x.2.1 v b, x.2.2)) := by
  rw [MatchingCore.match_stop_market_order,
    MatchingCore.match_stop_market_order, is_stop_triggered_setLast]
  rcases hm : MatchingCore.is_stop_triggered c (h r).side
      (h r).trigger_price with _ | bb
  · rfl
  · cases bb
    · rfl
    · dsimp only []
      rw [(hob v b _ _ _).2.1]
      rfl

/-- `match_market_if_touched_order` commutes with overwriting the
last-price fields. -/
theorem match_market_if_touched_order_setLast (cb : Callbacks) (h : Heap)
    (c : MatchingCore) (r : OrderRef) (v : Int) (b : Bool)
    (hob : lastOblivious cb) :
    MatchingCore.match_market_if_touched_order cb h (setLastFields c v b) r
      = (MatchingCore.match_market_if_touched_order cb h c r).map
          (fun x => (x.1, setLastFields x.2.1 v b, x.2.2)) := by
  rw [MatchingCore.match_market_if_touched_order,
    MatchingCore.match_market_if_touched_order, is_touch_triggered_setLast]
  rcases hm : MatchingCore.is_touch_triggered c (h r).side
      (h r).trigger_price with _ | bb
  · rfl
  · cases bb
    · rfl
    · dsimp only []
      rw [(hob v b _ _ _).2.1]
      rfl

/-- `match_stop_limit_order` commutes with overwriting the last-price
fields. -/
theorem match_stop_limit_order_setLast (cb : Callbacks) (h : Heap)
    (c : MatchingCore) (r : OrderRef) (init : Bool) (v : Int) (b : Bool)
    (hob : lastOblivious cb) :
    MatchingCore.match_stop_limit_order cb h (setLastFields c v b) r init
      = (MatchingCore.match_stop_limit_order cb h c r init).map
          (fun x => (x.1, setLastFields x.2.1 v b, x.2.2)) := by
  rw [MatchingCore.match_stop_limit_order,
    MatchingCore.match_stop_limit_order]
  cases ht : (h r).is_triggered
  · simp only [Bool.false_eq_true, if_false]
    rw [is_stop_triggered_setLast]
    rcases hm : MatchingCore.is_stop_triggered c (h r).side
        (h r).trigger_price with _ | bb
    · rfl
    · cases bb
      · rfl
      · dsimp only []
        rw [(hob v b _ _ _).1]
        dsimp only []
        rw [is_limit_matched_setLast]
        rcases hm2 : MatchingCore.is_limit_matched
            (cb.trigger_stop_order
              (updateOrder
                (updateOrder h r
                  (fun o => { o with triggered_price := some o.trigger_price })) r
                (fun o => { o with liquidity_side := (MatchingCore._determine_order_liquidity init o.side o.price o.trigger_price) }))
              c r).2
            ((cb.trigger_stop_order
              (updateOrder
                (updateOrder h r
                  (fun o => { o with triggered_price := some o.trigger_price })) r
                (fun o => { o with liquidity_side := (MatchingCore._determine_order_liquidity init o.side o.price o.trigger_price) }))
              c r).1 r).side
            ((cb.trigger_stop_order
              (updateOrder
                (updateOrder h r
                  (fun o => { o with triggered_price := some o.trigger_price })) r
                (fun o => { o with liquidity_side := (MatchingCore._determine_order_liquidity init o.side o.price o.trigger_price) }))
              c r).1 r).price with _ | b2
        · rfl
        · cases b2
          · rfl
          · dsimp only []
            rw [(hob v b _ _ _).2.2]
            rfl
  · simp only [if_true]
    rw [is_limit_matched_setLast]
    rcases hm : MatchingCore.is_limit_matched c (h r).side (h r).price
      with _ | bb
    · rfl
    · cases bb
      · rfl
      · dsimp only []
        rw [(hob v b _ _ _).2.2]
        rfl

/-- The common trigger-then-maybe-fill tail of the conditional-limit
matchers commutes with overwriting the last-price fields. -/
theorem tail_setLast (cb : Callbacks) (c : MatchingCore) (r : OrderRef)
    (H : Heap) (v : Int) (b : Bool) (hob : lastOblivious cb) :
    (match MatchingCore.is_limit_matched
        (cb.trigger_stop_order H (setLastFields c v b) r).2
        ((cb.trigger_stop_order H (setLastFields c v b) r).1 r).side
        ((cb.trigger_stop_order H (setLastFields c v b) r).1 r).price with
     | none => (none : MatchResult)
     | some false =>
         some ((cb.trigger_stop_order H (setLastFields c v b) r).1,
           (cb.trigger_stop_order H (setLastFields c v b) r).2,
           [Event.triggerStopOrder r])
     | some true =>
         some ((cb.fill_limit_order
             (updateOrder (cb.trigger_stop_order H (setLastFields c v b) r).1
               r (fun o => { o with liquidity_side := .taker }))
             (cb.trigger_stop_order H (setLastFields c v b) r).2 r).1,
           (cb.fill_limit_order
             (updateOrder (cb.trigger_stop_order H (setLastFields c v b) r).1
               r (fun o => { o with liquidity_side := .taker }))
             (cb.trigger_stop_order H (setLastFields c v b) r).2 r).2,
           [Event.triggerStopOrder r, Event.fillLimitOrder r]))
    = (match MatchingCore.is_limit_matched (cb.trigger_stop_order H c r).2
        ((cb.trigger_stop_order H c r).1 r).side
        ((cb.trigger_stop_order H c r).1 r).price with
     | none => (none : MatchResult)
     | some false =>
         some ((cb.trigger_stop_order H c r).1,
           (cb.trigger_stop_order H c r).2, [Event.triggerStopOrder r])
     | some true =>
         some ((cb.fill_limit_order
             (updateOrder (cb.trigger_stop_order H c r).1 r
               (fun o => { o with liquidity_side := .taker }))
             (cb.trigger_stop_order H c r).2 r).1,
           (cb.fill_limit_order
             (updateOrder (cb.trigger_stop_order H c r).1 r
               (fun o => { o with liquidity_side := .taker }))
             (cb.trigger_stop_order H c r).2 r).2,
           [Event.triggerStopOrder r, Event.fillLimitOrder r]) :
        MatchResult).map
        (fun x => (x.1, setLastFields x.2.1 v b, x.2.2)) := by
  rw [(hob v b H c r).1]
  dsimp only []
  rw [is_limit_matched_setLast]
  rcases hm : MatchingCore.is_limit_matched (cb.trigger_stop_order H c r).2
      ((cb.trigger_stop_order H c r).1 r).side
      ((cb.trigger_stop_order H c r).1 r).price with _ | bb
  · rfl
  · cases bb
    · rfl
    · dsimp only []
      rw [(hob v b _ _ _).2.2]
      rfl

/-- `match_limit_if_touched_order` commutes with overwriting the
last-price fields. -/
theorem match_limit_if_touched_order_setLast (cb : Callbacks) (h : Heap)
    (c : MatchingCore) (r : OrderRef) (init : Bool) (v : Int) (b : Bool)
    (hob : lastOblivious cb) :
    MatchingCore.match_limit_if_touched_order cb h (setLastFields c v b)
        r init
      = (MatchingCore.match_limit_if_touched_order cb h c r init).map
          (fun x => (x.1, setLastFields x.2.1 v b, x.2.2)) := by
  rw [MatchingCore.match_limit_if_touched_order,
    MatchingCore.match_limit_if_touched_order]
  cases ht : (h r).is_triggered
  · simp only [Bool.false_eq_true, if_false]
    rw [is_touch_triggered_setLast]
    rcases hm : MatchingCore.is_touch_triggered c (h r).side
        (h r).trigger_price with _ | bb
    · rfl
    · cases bb
      · rfl
      · dsimp only []
        exact tail_setLast cb c r _ v b hob
  · simp only [if_true]
    rw [is_limit_matched_setLast]
    rcases hm : MatchingCore.is_limit_matched c (h r).side (h r).price
      with _ | bb
    · rfl
    · cases bb
      · rfl
      · dsimp only []
        rw [(hob v b _ _ _).2.2]
        rfl

/-- C9: the stored last price never influences matching. Two cores that
differ only in `last_raw` and `is_last_initialized` (one is
`setLastFields` of the other; `set_last_raw` produces exactly such a
state) give identical results for `is_limit_matched`, `is_stop_triggered`
and `is_touch_triggered` at every side and price, and `match_order` — run
with callbacks that treat such state pairs uniformly — produces the same
heap and the same callback invocations, with the resulting cores again
differing only in the last-price fields. -/
theorem last_price_never_influences (c : MatchingCore) (v : Int)
    (b : Bool) :
    MatchingCore.set_last_raw c v = setLastFields c v true
    ∧ (∀ s p, MatchingCore.is_limit_matched (setLastFields c v b) s p
        = MatchingCore.is_limit_matched c s p)
    ∧ (∀ s p, MatchingCore.is_stop_triggered (setLastFields c v b) s p
        = MatchingCore.is_stop_triggered c s p)
    ∧ (∀ s p, MatchingCore.is_touch_triggered (setLastFields c v b) s p
        = MatchingCore.is_touch_triggered c s p)
    ∧ (∀ (cb : Callbacks) (h : Heap) (r : OrderRef) (init : Bool),
        lastOblivious cb →
        MatchingCore.match_order cb h (setLastFields c v b) r init
          = (MatchingCore.match_order cb h c r init).map
              (fun x => (x.1, setLastFields x.2.1 v b, x.2.2))) := by
  refine ⟨rfl, is_limit_matched_setLast c v b,
    is_stop_triggered_setLast c v b, is_touch_triggered_setLast c v b, ?_⟩
  intro cb h r init hob
  rw [MatchingCore.match_order, MatchingCore.match_order]
  cases hty : (h r).order_type
  · rfl
  · exact match_limit_order_setLast cb h c r v b hob
  · exact match_stop_market_order_setLast cb h c r v b hob
  · exact match_stop_limit_order_setLast cb h c r init v b hob
  · exact match_limit_order_setLast cb h c r v b hob
  · exact match_market_if_touched_order_setLast cb h c r v b hob
  · exact match_limit_if_touched_order_setLast cb h c r init v b hob
  · exact match_stop_market_order_setLast cb h c r v b hob
  · exact match_stop_limit_order_setLast cb h c r init v b hob

/-- C9 (witness): the non-interference statement evaluated at a concrete
state, order and last price, with the concrete last-oblivious callbacks. -/
theorem last_price_never_influences_witness :
    lastOblivious cbSetTriggered
    ∧ MatchingCore.match_order cbSetTriggered hTrig
        (setLastFields cTrig 42 true) 0 false
      = (MatchingCore.match_order cbSetTriggered hTrig cTrig 0 false).map
          (fun x => (x.1, setLastFields x.2.1 42 true, x.2.2)) :=
  ⟨fun _ _ _ _ _ => ⟨rfl, rfl, rfl⟩,
    (last_price_never_influences cTrig 42 true).2.2.2.2 cbSetTriggered hTrig
      0 false (fun _ _ _ _ _ => ⟨rfl, rfl, rfl⟩)⟩
